import Mathlib

/-!
Verification development for the VoiceNotes repository.

The repository is a browser note-taking application in two JavaScript
variants: `src/app.js` (mobile-optimized) and the hybrid variant stored as
`src/unnamed/part_001`.  This file gives a shallow embedding of the parts of
the code the claims are about:

* the IndexedDB persistence gateway (`saveNote`, `getAllNotes`, `getNote`,
  `deleteNote`) over an object store with an auto-increment key;
* the HTML-escaping sanitizer `sanitizeInput`;
* the transcript insertion logic of the two result handlers in `app.js`
  (`handleMobileResults`, `handleDesktopResults`) together with the
  cursor-splice algorithm they share;
* the autosave debounce (`scheduleAutoSave` / `autoSave`);
* the recording session state machine (`startRecording`, `stopRecording`,
  `safeStartRecognition`, and the `onend` auto-restart logic of both
  variants);
* the JSON export (`exportNotes`).

JavaScript strings are modeled as lists of characters (`JStr`); for the
ASCII data handled here the JavaScript code-unit view and the character
view coincide.  The IndexedDB object store is modeled as the key-ordered
sequence of records it iterates in (`getAll` returns records in ascending
key order; `add` assigns the strictly increasing auto-increment key; `put`
of an existing key replaces the record in place, which keeps the key-order
position).  Timers are modeled by explicit scheduling state: a scheduled
callback is a pending flag or a recorded fire time, and firing it is an
explicit step, so stop-versus-restart races become ordinary sequences of
steps.
-/

namespace VoiceNotes

/-- JavaScript strings, modeled as lists of characters. -/
abbrev JStr := List Char

/-- Turn a Lean string literal into the character-list model. -/
def strOf (s : String) : JStr := s.toList

/-- Embedding of `sanitizeInput` (both variants): assigning the input to a
DOM text node and reading back `innerHTML` HTML-escapes the text, replacing
the characters `&`, `<`, `>` by their entities in a single pass. -/
def escapeHtml (s : JStr) : JStr :=
  s.flatMap fun c =>
    if c = '&' then strOf "&amp;"
    else if c = '<' then strOf "&lt;"
    else if c = '>' then strOf "&gt;"
    else [c]

/-- JavaScript `String.prototype.trim`: drop whitespace from both ends. -/
def jtrim (s : JStr) : JStr :=
  ((s.dropWhile Char.isWhitespace).reverse.dropWhile Char.isWhitespace).reverse

/-- JavaScript `str.endsWith(c)` for a single-character suffix. -/
def endsWithCh (s : JStr) (c : Char) : Bool := s.getLast? == some c

/-- In-memory note as built by `createNewNote` and mutated by the editor:
`id` is `none` until the store assigns a key; `summary` exists only in the
hybrid variant and is `none` in the `app.js` variant. -/
structure Note where
  id : Option Nat
  title : JStr
  text : JStr
  summary : Option JStr
  language : JStr
  timestamp : Nat
  tags : List JStr
deriving DecidableEq

/-- Persisted record: a note after `saveNote` assigned its key and
sanitized its fields. -/
structure StoredNote where
  id : Nat
  title : JStr
  text : JStr
  summary : Option JStr
  language : JStr
  timestamp : Nat
  tags : List JStr
deriving DecidableEq

/-- The IndexedDB object store: records in ascending key order (the order
`getAll` iterates), plus the auto-increment key generator.  A fresh store
starts with generator value 1, as IndexedDB key generators do. -/
structure Store where
  notes : List StoredNote
  nextId : Nat
deriving DecidableEq

/-- The empty object store right after the upgrade hook created it. -/
def emptyStore : Store := { notes := [], nextId := 1 }

/-- Keys currently present in the store. -/
def Store.ids (s : Store) : List Nat := s.notes.map StoredNote.id

/-- The `sanitizedNote` object `saveNote` builds before writing: `title`
and `text` are HTML-escaped; `summary` is escaped when truthy (non-null,
non-empty) and stored as null otherwise (hybrid variant, line 58);
`language`, `timestamp` and `tags` are copied as is. -/
def sanitizeRecord (n : Note) (i : Nat) : StoredNote :=
  { id := i
    title := escapeHtml n.title
    text := escapeHtml n.text
    summary := match n.summary with
      | some sm => if sm = [] then none else some (escapeHtml sm)
      | none => none
    language := n.language
    timestamp := n.timestamp
    tags := n.tags }

/-- Insert a record at its key position (IndexedDB `put` of a key that is
not present; keys are kept in ascending order). -/
def insertById (r : StoredNote) : List StoredNote → List StoredNote
  | [] => [r]
  | x :: xs => if r.id < x.id then r :: x :: xs else x :: insertById r xs

/-- Embedding of `saveNote` (both variants): sanitize the note, then
`store.put` when `note.id` is set, else `store.add`.  `add` assigns the
generator key and bumps the generator; `put` of an existing key replaces
the record in place; `put` of a fresh explicit key inserts at key position
and pulls the generator past it.  Returns the new store and the key the
request resolves with. -/
def saveNote (s : Store) (n : Note) : Store × Nat :=
  match n.id with
  | some i =>
    if s.ids.contains i then
      ({ s with notes := s.notes.map fun r => if r.id = i then sanitizeRecord n i else r }, i)
    else
      ({ notes := insertById (sanitizeRecord n i) s.notes, nextId := max s.nextId (i + 1) }, i)
  | none =>
    ({ notes := s.notes ++ [sanitizeRecord n s.nextId], nextId := s.nextId + 1 }, s.nextId)

/-- Embedding of `getAllNotes` (both variants): `store.getAll()` yields the
records in key order and the gateway reverses them. -/
def getAllNotes (s : Store) : List StoredNote := s.notes.reverse

/-- Embedding of `getNote`: `store.get(id)`. -/
def getNote (s : Store) (i : Nat) : Option StoredNote :=
  s.notes.find? fun r => r.id = i

/-- Embedding of `deleteNote` (both variants): `store.delete(id)` removes
the record with that key if present and resolves successfully either way
(the request only rejects on an underlying I/O error, which the model,
like the claims, is not about). -/
def deleteNote (s : Store) (i : Nat) : Store :=
  { s with notes := s.notes.filter fun r => r.id != i }

/-- A step of the persistence workload: one `saveNote` or one
`deleteNote` call. -/
inductive Op where
  | save (n : Note)
  | del (i : Nat)
deriving DecidableEq

/-- Apply one operation to the store. -/
def applyOp (s : Store) : Op → Store
  | .save n => (saveNote s n).1
  | .del i => deleteNote s i

/-- Run a sequence of operations left to right. -/
def runOps (s : Store) (ops : List Op) : Store := ops.foldl applyOp s

/-- Does this operation save a note under the explicit id `i`? -/
def savesId (i : Nat) : Op → Bool
  | .save n => n.id == some i
  | .del _ => false

/-! ### Transcript assembly (app.js result handlers)

A recognition event carries a list of result slots; only the top hypothesis
of each slot is used, so a slot is modeled as its transcript together with
its `isFinal` flag.  The editor state carries the textarea content, the
cursor (`selectionStart`), whether a note is open (`currentNote`), and
the `lastFinalizedLength` counter of the desktop handler. -/

structure EditorState where
  noteText : JStr
  selStart : Nat
  hasNote : Bool
  lastFinalizedLength : Nat
deriving DecidableEq

/-- The cursor offset actually used by both handlers:
`elements.noteTextArea.selectionStart || elements.noteTextArea.value.length`.
A zero offset is falsy in JavaScript, so it is replaced by the text
length. -/
def effCursor (s : EditorState) : Nat :=
  if s.selStart = 0 then s.noteText.length else s.selStart

/-- The `needsSpace` test of both app.js handlers: the text before the
cursor is non-empty and ends in neither a space nor a newline. -/
def needsSpaceFor (before : JStr) : Bool :=
  !before.isEmpty && !endsWithCh before ' ' && !endsWithCh before '\n'

/-- The `spacer` both app.js handlers splice in before the delta. -/
def spacerFor (before : JStr) : JStr :=
  if needsSpaceFor before then [' '] else []

/-- The cursor-splice insertion shared by `handleMobileResults` and
`handleDesktopResults` in app.js (lines 497-506 and 529-537): split at the
cursor, add a leading space when the text before the cursor is non-empty
and ends in neither a space nor a newline, insert the delta followed by an
unconditional trailing space, and put the cursor right after that trailing
space. -/
def insertTranscript (s : EditorState) (delta : JStr) : EditorState :=
  let cursorPos := effCursor s
  let textBefore := s.noteText.take cursorPos
  let textAfter := s.noteText.drop cursorPos
  let spacer := spacerFor textBefore
  { s with
    noteText := textBefore ++ spacer ++ delta ++ [' '] ++ textAfter
    selStart := cursorPos + spacer.length + delta.length + 1 }

/-- Embedding of app.js `handleMobileResults` (lines 493-511): every final
slot transcript is trimmed and, when non-empty and a note is open,
spliced in at the cursor. -/
def handleMobileResults (ev : List (JStr × Bool)) (s : EditorState) : EditorState :=
  ev.foldl
    (fun st r =>
      if r.2 then
        let transcript := jtrim r.1
        if !transcript.isEmpty && st.hasNote then insertTranscript st transcript else st
      else st)
    s

/-- The cumulative final-text buffer `handleDesktopResults` builds: the
concatenation, in slot order, of every final transcript followed by a
space. -/
def finalTextOf (ev : List (JStr × Bool)) : JStr :=
  ev.foldl (fun acc r => if r.2 then acc ++ r.1 ++ [' '] else acc) []

/-- Embedding of app.js `handleDesktopResults` (lines 513-546): when the
cumulative final text is longer than `lastFinalizedLength`, the trimmed
suffix past `lastFinalizedLength` is spliced in (when non-empty and a note
is open) and the counter is set to the new cumulative length.  Interim
slots only feed the live display and do not touch this state. -/
def handleDesktopResults (ev : List (JStr × Bool)) (s : EditorState) : EditorState :=
  let finalText := finalTextOf ev
  if s.lastFinalizedLength < finalText.length then
    let newText := jtrim (finalText.drop s.lastFinalizedLength)
    let s2 := if !newText.isEmpty && s.hasNote then insertTranscript s newText else s
    { s2 with lastFinalizedLength := finalText.length }
  else s

/-! ### Autosave debounce (`scheduleAutoSave` / `autoSave`, both variants)

`scheduleAutoSave` clears any pending timer and schedules `autoSave` 1000 ms
later; `autoSave` reads the editor content at fire time and writes it.  The
timeline is modeled by processing the chronologically ordered mutations:
each mutation first lets a pending timer whose fire time has already been
reached fire (producing a write of the editor content at that moment), then
replaces the pending timer with one at its own time + 1000 ms; after the
last mutation the remaining timer fires.  A mutation is a pair of its
arrival time and the editor content it leaves behind. -/

def debounceGo (pend : Option Nat) (editor : String) :
    List (Nat × String) → List (Nat × String)
  | [] =>
    match pend with
    | some f => [(f, editor)]
    | none => []
  | (t, c) :: rest =>
    match pend with
    | some f =>
      if f ≤ t then (f, editor) :: debounceGo (some (t + 1000)) c rest
      else debounceGo (some (t + 1000)) c rest
    | none => debounceGo (some (t + 1000)) c rest

/-- The persisted writes (fire time, content) produced by a chronologically
ordered burst of mutations, starting with no timer pending. -/
def debounceRun (muts : List (Nat × String)) : List (Nat × String) :=
  debounceGo none "" muts

/-- Consecutive mutations arrive within 1000 ms of each other: each arrives
strictly before the timer of the previous mutation would fire. -/
def gapsOK : List (Nat × String) → Bool
  | [] => true
  | [_] => true
  | (t1, _) :: (t2, c2) :: rest => decide (t2 < t1 + 1000) && gapsOK ((t2, c2) :: rest)

/-! ### Recording session state (auto-restart and stop suppression)

`RecState` models the app.js session flags together with the pending
auto-restart timer the `onend` handler schedules; `engineStarts` counts
calls of `recognition.start()`. -/

structure RecState where
  isRecording : Bool
  isRecognitionStarting : Bool
  pendingRestart : Bool
  engineStarts : Nat
deriving DecidableEq

/-- Embedding of app.js `safeStartRecognition` (lines 472-491): bail out
unless the session is still recording and no start is in flight; otherwise
mark a start in flight and call `recognition.start()`. -/
def safeStartRecognition (s : RecState) : RecState :=
  if s.isRecognitionStarting || !s.isRecording then s
  else { s with isRecognitionStarting := true, engineStarts := s.engineStarts + 1 }

/-- Embedding of app.js `stopRecording` (lines 592-607): a no-op when
already stopped, else clear both flags and stop the engine.  The scheduled
restart timer is not cancelled; suppression relies on the flag check inside
`safeStartRecognition`. -/
def stopRecording (s : RecState) : RecState :=
  if !s.isRecording then s
  else { s with isRecording := false, isRecognitionStarting := false }

/-- Embedding of the app.js `recognition.onend` handler (lines 380-397):
clear the start-in-flight flag and, when still recording, schedule
`safeStartRecognition` after a 100 ms delay. -/
def onendApp (s : RecState) : RecState :=
  { s with isRecognitionStarting := false, pendingRestart := s.isRecording }

/-- The scheduled app.js restart timer firing: it runs
`safeStartRecognition`, which re-checks the flags at that moment. -/
def restartTimerFire (s : RecState) : RecState :=
  if s.pendingRestart then safeStartRecognition { s with pendingRestart := false } else s

/-- Session state of the hybrid variant (`src/unnamed/part_001`), which has
no `isRecognitionStarting` flag but gates its restart on connectivity. -/
structure HState where
  isRecording : Bool
  online : Bool
  pendingRestart : Bool
  engineStarts : Nat
deriving DecidableEq

/-- Embedding of the hybrid `stopRecording` (part_001 lines 578-600):
only acts while recording. -/
def stopRecordingH (s : HState) : HState :=
  if s.isRecording then { s with isRecording := false } else s

/-- Embedding of the hybrid `recognition.onend` handler (part_001 lines
473-495): the recording flag and connectivity are checked when the end
notification arrives; if both hold, a restart callback is scheduled 100 ms
later; if recording but offline, the session is stopped. -/
def onendHybrid (s : HState) : HState :=
  if s.isRecording && s.online then { s with pendingRestart := true }
  else if s.isRecording && !s.online then stopRecordingH s
  else s

/-- The scheduled hybrid restart callback firing (part_001 lines 481-490):
it calls `recognition.start()` unconditionally, without re-checking the
recording flag. -/
def restartTimerFireH (s : HState) : HState :=
  if s.pendingRestart then
    { s with pendingRestart := false, engineStarts := s.engineStarts + 1 }
  else s

/-! ### Start-recording gating (offline refusal) -/

/-- State consulted by `startRecording`: the session flags, the
connectivity flag, engine support, an engine start counter, and whether a
user-facing status message was shown. -/
structure SessionState where
  isRecording : Bool
  isRecognitionStarting : Bool
  online : Bool
  hasSupport : Bool
  engineStarts : Nat
  statusShown : Bool
deriving DecidableEq

/-- `safeStartRecognition` as it acts on the full session state. -/
def safeStartSession (s : SessionState) : SessionState :=
  if s.isRecognitionStarting || !s.isRecording then s
  else { s with isRecognitionStarting := true, engineStarts := s.engineStarts + 1 }

/-- Embedding of app.js `startRecording` (lines 548-590): bail out when a
session is already active; refuse with a status message when offline, and
likewise when the engine is unsupported; otherwise set the recording flag
and start the engine through `safeStartRecognition`, showing the recording
status. -/
def startRecording (s : SessionState) : SessionState :=
  if s.isRecording || s.isRecognitionStarting then s
  else if !s.online then { s with statusShown := true }
  else if !s.hasSupport then { s with statusShown := true }
  else safeStartSession { s with isRecording := true, statusShown := true }

/-- Embedding of the hybrid `startRecording` (part_001 lines 500-576):
refuse with a message when the engine is unsupported, then when offline;
otherwise call `recognition.start()` and set the recording flag. -/
def startRecordingH (s : SessionState) : SessionState :=
  if !s.hasSupport then { s with statusShown := true }
  else if !s.online then { s with statusShown := true }
  else { s with
    isRecording := true
    engineStarts := s.engineStarts + 1
    statusShown := true }

/-! ### JSON export (`exportNotes`, both variants)

`exportNotes` serializes `getAllNotes()` with `JSON.stringify(notes, null, 2)`
and offers the document for download.  The document is modeled by its JSON
value: `JSON.stringify` and `JSON.parse` are mutually inverse between JSON
values and document text (a guarantee of the JSON facility of the platform, an
external collaborator), so round-tripping the document text is
round-tripping the value.  Field names are kept as Lean string literals. -/

inductive Json where
  | jnull : Json
  | jnum : Nat → Json
  | jstr : JStr → Json
  | jarr : List Json → Json
  | jobj : List (String × Json) → Json

/-- The JSON value `JSON.stringify` derives from one stored record: its
enumerable fields in insertion order, strings kept exactly as stored (no
sanitization at export time). -/
def noteToJson (r : StoredNote) : Json :=
  .jobj
    [ ("title", .jstr r.title)
    , ("text", .jstr r.text)
    , ("summary", match r.summary with | some sm => .jstr sm | none => .jnull)
    , ("language", .jstr r.language)
    , ("timestamp", .jnum r.timestamp)
    , ("tags", .jarr (r.tags.map Json.jstr))
    , ("id", .jnum r.id) ]

/-- Object field lookup, as reading a property of a parsed JSON object. -/
def getField (fs : List (String × Json)) (k : String) : Option Json :=
  match fs with
  | [] => none
  | (k2, v) :: rest => if k2 = k then some v else getField rest k

/-- Read a JSON value as a number. -/
def asNum : Json → Option Nat
  | .jnum n => some n
  | _ => none

/-- Read a JSON value as a string. -/
def asStr : Json → Option JStr
  | .jstr sm => some sm
  | _ => none

/-- Read a JSON value as a nullable string. -/
def asOptStr : Json → Option (Option JStr)
  | .jstr sm => some (some sm)
  | .jnull => some none
  | _ => none

/-- Decode every element of a parsed JSON array, failing if any element
fails. -/
def decodeList (f : Json → Option α) : List Json → Option (List α)
  | [] => some []
  | x :: xs =>
    match f x, decodeList f xs with
    | some a, some l => some (a :: l)
    | _, _ => none

/-- Read a JSON value as an array of strings (the `tags` field). -/
def asStrArr : Json → Option (List JStr)
  | .jarr xs => decodeList asStr xs
  | _ => none

/-- Reconstruct a stored record from a parsed JSON object by reading its
fields. -/
def jsonToNote (j : Json) : Option StoredNote :=
  match j with
  | .jobj fs =>
    match getField fs "title" >>= asStr, getField fs "text" >>= asStr,
        getField fs "summary" >>= asOptStr, getField fs "language" >>= asStr,
        getField fs "timestamp" >>= asNum, getField fs "tags" >>= asStrArr,
        getField fs "id" >>= asNum with
    | some t, some x, some sm, some lg, some ts, some tg, some i =>
      some { id := i, title := t, text := x, summary := sm, language := lg,
             timestamp := ts, tags := tg }
    | _, _, _, _, _, _, _ => none
  | _ => none

/-- The export document: the JSON array `exportNotes` serializes, namely
`getAllNotes()` element-wise. -/
def exportDoc (s : Store) : Json := .jarr ((getAllNotes s).map noteToJson)

/-- Parsing the export document back into a note list. -/
def parseExport : Json → Option (List StoredNote)
  | .jarr xs => decodeList jsonToNote xs
  | _ => none

/-- Does the text contain two adjacent space characters? -/
def hasDoubleSpace : JStr → Bool
  | [] => false
  | [_] => false
  | a :: b :: rest => (a = ' ' && b = ' ') || hasDoubleSpace (b :: rest)

/-! ## Concrete fixtures used by witnesses and counterexamples -/

/-- A throwaway note used to set up concrete stores for witnesses. -/
def wNote : Note :=
  { id := none, title := strOf "t", text := strOf "x", summary := none,
    language := strOf "en", timestamp := 1, tags := [] }

/-- A one-record store used by the C8 witness. -/
def wStore : Store := (saveNote emptyStore wNote).1

/-- A note with markup in all three sanitized fields, for the C7 witness. -/
def wNoteHtml : Note :=
  { id := none, title := strOf "a<b", text := strOf "c&d", summary := some (strOf "e>f"),
    language := strOf "en", timestamp := 2, tags := [] }

/-- First inserted note of the C1 scenario. -/
def c1NoteA : Note :=
  { id := none, title := strOf "a", text := strOf "first", summary := none,
    language := strOf "en", timestamp := 10, tags := [] }

/-- Second inserted note of the C1 scenario. -/
def c1NoteB : Note :=
  { id := none, title := strOf "b", text := strOf "second", summary := none,
    language := strOf "en", timestamp := 20, tags := [] }

/-- The edit of the first note (now under id 1) in the C1 scenario. -/
def c1NoteA2 : Note :=
  { id := some 1, title := strOf "a", text := strOf "edited", summary := none,
    language := strOf "en", timestamp := 30, tags := [] }

/-- Store holding the two inserted notes of the C1 scenario (ids 1 and 2). -/
def c1TwoStore : Store := (saveNote (saveNote emptyStore c1NoteA).1 c1NoteB).1

/-- Store of the C1 scenario after the old note (id 1) was edited last. -/
def c1FinalStore : Store := (saveNote c1TwoStore c1NoteA2).1

/-- Editor with the cursor between "ab" and " cd", for the C4
counterexample. -/
def c4EdState : EditorState :=
  { noteText := strOf "ab cd", selStart := 2, hasNote := true, lastFinalizedLength := 0 }

/-- Editor with non-empty text and a zero cursor offset, for the C10
witness. -/
def c10EdState : EditorState :=
  { noteText := strOf "ab", selStart := 0, hasNote := true, lastFinalizedLength := 0 }

/-- Fresh editor over an empty open note, for the C3 witness. -/
def s0Ed : EditorState :=
  { noteText := [], selStart := 0, hasNote := true, lastFinalizedLength := 0 }

/-- First desktop recognition event: one final slot "hello". -/
def ev1W : List (JStr × Bool) := [(strOf "hello", true)]

/-- Second desktop recognition event: the engine reports the cumulative
final slots "hello" and "world". -/
def ev2W : List (JStr × Bool) := [(strOf "hello", true), (strOf "world", true)]

/-- Editor state after the first desktop event of the C3 scenario. -/
def desk1 : EditorState := handleDesktopResults ev1W s0Ed

/-- A recording app.js session about to receive an end notification, for
the C2 witness. -/
def c2AppStart : RecState :=
  { isRecording := true, isRecognitionStarting := false, pendingRestart := false,
    engineStarts := 7 }

/-- A recording, online hybrid session about to receive an end
notification, for the C2 counterexample. -/
def c2HybridStart : HState :=
  { isRecording := true, online := true, pendingRestart := false, engineStarts := 0 }

/-- A stopped, offline session with engine support, for the C6 witness. -/
def c6Session : SessionState :=
  { isRecording := false, isRecognitionStarting := false, online := false,
    hasSupport := true, engineStarts := 0, statusShown := false }

/-- Five mutations, each within 1000 ms of the previous one, for the C5
witness. -/
def c5Burst : List (Nat × String) :=
  [(0, "a"), (500, "b"), (900, "c"), (1500, "d"), (2300, "e")]

/-! ## Helper lemmas about the store model -/

/-- The inserted record is a member of the insertion result. -/
theorem mem_insertById_self (r : StoredNote) (l : List StoredNote) :
    r ∈ insertById r l := by
  induction l with
  | nil => simp [insertById]
  | cons x xs ih =>
    by_cases h : r.id < x.id
    · simp [insertById, h]
    · simp only [insertById, if_neg h]
      exact List.mem_cons_of_mem _ ih

/-- Members of an insertion result are the inserted record or old
members. -/
theorem eq_or_mem_of_mem_insertById {q : StoredNote} (r : StoredNote) :
    ∀ (l : List StoredNote), q ∈ insertById r l → q = r ∨ q ∈ l := by
  intro l
  induction l with
  | nil =>
    intro hm
    rw [show insertById r [] = [r] from rfl] at hm
    exact Or.inl (List.mem_singleton.mp hm)
  | cons x xs ih =>
    intro hm
    by_cases hlt : r.id < x.id
    · rw [show insertById r (x :: xs)
            = if r.id < x.id then r :: x :: xs else x :: insertById r xs from rfl,
        if_pos hlt] at hm
      rcases List.mem_cons.mp hm with hm | hm
      · exact Or.inl hm
      · exact Or.inr hm
    · rw [show insertById r (x :: xs)
            = if r.id < x.id then r :: x :: xs else x :: insertById r xs from rfl,
        if_neg hlt] at hm
      rcases List.mem_cons.mp hm with hm | hm
      · exact Or.inr (hm ▸ List.mem_cons_self x xs)
      · rcases ih hm with h1 | h1
        · exact Or.inl h1
        · exact Or.inr (List.mem_cons_of_mem _ h1)

/-- Ids present after an insertion: the inserted id or an old id. -/
theorem eq_or_mem_of_mem_ids_insertById {x : Nat} (r : StoredNote)
    (l : List StoredNote) (hm : x ∈ (insertById r l).map StoredNote.id) :
    x = r.id ∨ x ∈ l.map StoredNote.id := by
  rcases List.mem_map.mp hm with ⟨q, hq, hid⟩
  rcases eq_or_mem_of_mem_insertById r l hq with h1 | h1
  · exact Or.inl (hid ▸ h1 ▸ rfl)
  · exact Or.inr (List.mem_map.mpr ⟨q, h1, hid⟩)

/-- The record list `saveNote` produces in the update branch. -/
theorem saveNote_update_notes (s : Store) (n : Note) (j : Nat) (hid : n.id = some j)
    (hc : j ∈ s.ids) :
    (saveNote s n).1.notes = s.notes.map fun r => if r.id = j then sanitizeRecord n j else r := by
  simp [saveNote, hid, hc]

/-- The update branch of `saveNote` leaves the key generator alone. -/
theorem saveNote_update_nextId (s : Store) (n : Note) (j : Nat) (hid : n.id = some j)
    (hc : j ∈ s.ids) : (saveNote s n).1.nextId = s.nextId := by
  simp [saveNote, hid, hc]

/-- The record list `saveNote` produces when putting a fresh explicit
key. -/
theorem saveNote_putfresh_notes (s : Store) (n : Note) (j : Nat) (hid : n.id = some j)
    (hc : j ∉ s.ids) :
    (saveNote s n).1.notes = insertById (sanitizeRecord n j) s.notes := by
  simp [saveNote, hid, hc]

/-- Putting a fresh explicit key pulls the generator past it. -/
theorem saveNote_putfresh_nextId (s : Store) (n : Note) (j : Nat) (hid : n.id = some j)
    (hc : j ∉ s.ids) : (saveNote s n).1.nextId = max s.nextId (j + 1) := by
  simp [saveNote, hid, hc]

/-- The record list `saveNote` produces in the insert branch. -/
theorem saveNote_insert_notes (s : Store) (n : Note) (hid : n.id = none) :
    (saveNote s n).1.notes = s.notes ++ [sanitizeRecord n s.nextId] := by
  simp [saveNote, hid]

/-- The insert branch of `saveNote` bumps the key generator. -/
theorem saveNote_insert_nextId (s : Store) (n : Note) (hid : n.id = none) :
    (saveNote s n).1.nextId = s.nextId + 1 := by
  simp [saveNote, hid]

/-- One persistence operation neither resurrects an absent id `i` nor
pulls the key generator back to it, provided the operation does not
explicitly save under `i`. -/
theorem applyOp_preserves_absent {i : Nat} {s : Store} {op : Op}
    (h1 : i ∉ s.ids) (h2 : i < s.nextId) (h3 : savesId i op = false) :
    i ∉ (applyOp s op).ids ∧ i < (applyOp s op).nextId := by
  cases op with
  | del k =>
    refine ⟨fun hmem => h1 ?_, h2⟩
    rcases List.mem_map.mp hmem with ⟨r, hr, hid⟩
    exact List.mem_map.mpr ⟨r, (List.mem_filter.mp hr).1, hid⟩
  | save n =>
    show i ∉ (saveNote s n).1.ids ∧ i < (saveNote s n).1.nextId
    cases hid : n.id with
    | none =>
      constructor
      · intro hmem
        rw [Store.ids, saveNote_insert_notes s n hid] at hmem
        rcases List.mem_map.mp hmem with ⟨r, hr, hrid⟩
        rcases List.mem_append.mp hr with hr | hr
        · exact h1 (List.mem_map.mpr ⟨r, hr, hrid⟩)
        · have : r = sanitizeRecord n s.nextId := List.mem_singleton.mp hr
          rw [this] at hrid
          exact Nat.ne_of_lt h2 hrid.symm
      · rw [saveNote_insert_nextId s n hid]
        exact Nat.lt_succ_of_lt h2
    | some j =>
      have hji : j ≠ i := by
        simp only [savesId, hid, beq_iff_eq, Option.some.injEq] at h3
        simpa using h3
      by_cases hc : j ∈ s.ids
      · constructor
        · intro hmem
          rw [Store.ids, saveNote_update_notes s n j hid hc] at hmem
          rcases List.mem_map.mp hmem with ⟨r, hr, hrid⟩
          rcases List.mem_map.mp hr with ⟨q, hq, hfq⟩
          by_cases hqj : q.id = j
          · rw [← hfq, if_pos hqj] at hrid
            exact hji (by simpa [sanitizeRecord] using hrid)
          · rw [← hfq, if_neg hqj] at hrid
            exact h1 (List.mem_map.mpr ⟨q, hq, hrid⟩)
        · rw [saveNote_update_nextId s n j hid hc]
          exact h2
      · constructor
        · intro hmem
          rw [Store.ids, saveNote_putfresh_notes s n j hid hc] at hmem
          rcases eq_or_mem_of_mem_ids_insertById _ _ hmem with hx | hx
          · exact hji (by simpa [sanitizeRecord] using hx.symm)
          · exact h1 hx
        · rw [saveNote_putfresh_nextId s n j hid hc]
          exact Nat.lt_of_lt_of_le h2 (Nat.le_max_left _ _)

/-- An absent id stays absent through a whole workload that never saves
under it. -/
theorem runOps_preserves_absent (i : Nat) :
    ∀ (ops : List Op) (s : Store), i ∉ s.ids → i < s.nextId →
      (ops.all fun op => !savesId i op) = true → i ∉ (runOps s ops).ids := by
  intro ops
  induction ops with
  | nil => intro s h1 _ _; simpa [runOps] using h1
  | cons op rest ih =>
    intro s h1 h2 h3
    simp only [List.all_cons, Bool.and_eq_true, Bool.not_eq_true'] at h3
    have step := applyOp_preserves_absent h1 h2 h3.1
    show i ∉ (runOps (applyOp s op) rest).ids
    exact ih (applyOp s op) step.1 step.2 (by simpa using h3.2)

/-! ## Claim C1 (corrected) -/

/-- Counterexample to claim C1 as stated.  Starting from the empty store,
insert two notes (they receive ids 1 and 2), then save an edit of the old
note: `saveNote` resolves with id 1, so the most recently saved note is
the one with id 1 and timestamp 30 — yet `getAllNotes` returns the note
with id 2 (timestamp 20) first.  The edit did reach the store (the record
under id 1 is the sanitized edited note); the update simply kept its key
position, so it did not jump to the front. -/
theorem c1_counterexample :
    (saveNote c1TwoStore c1NoteA2).2 = 1
    ∧ (getAllNotes c1FinalStore).head?.map StoredNote.id = some 2
    ∧ (getAllNotes c1FinalStore).head?.map StoredNote.timestamp = some 20
    ∧ getNote c1FinalStore 1 = some (sanitizeRecord c1NoteA2 1) := by decide

/-- Claim C1 as amended.  For every workload of save and delete
operations: (1) once an existing id is deleted, `getAllNotes` never again
returns a note with that id, as long as no later operation saves under
that explicit id; (2) after an insert (id unset), the first note returned
is exactly the newly written sanitized record, i.e. the most recently
INSERTED note is first; (3) an update to an existing id preserves the id
order of the returned list, so an edited old note keeps its position
instead of moving to the front. -/
theorem c1_amended_list_order :
    (∀ (s : Store) (i : Nat) (ops : List Op),
        i < s.nextId →
        (ops.all fun op => !savesId i op) = true →
        i ∉ (getAllNotes (runOps (deleteNote s i) ops)).map StoredNote.id)
    ∧ (∀ (s : Store) (n : Note), n.id = none →
        (getAllNotes (saveNote s n).1).head? = some (sanitizeRecord n s.nextId))
    ∧ (∀ (s : Store) (n : Note) (i : Nat), n.id = some i → i ∈ s.ids →
        (getAllNotes (saveNote s n).1).map StoredNote.id
          = (getAllNotes s).map StoredNote.id) := by
  refine ⟨?_, ?_, ?_⟩
  · intro s i ops hlt hall
    have hdel1 : i ∉ (deleteNote s i).ids := by
      intro hmem
      rcases List.mem_map.mp hmem with ⟨r, hr, hid⟩
      have := (List.mem_filter.mp hr).2
      rw [hid] at this
      simp at this
    have hdel2 : i < (deleteNote s i).nextId := hlt
    have habs := runOps_preserves_absent i ops (deleteNote s i) hdel1 hdel2 hall
    intro hmem
    apply habs
    rw [getAllNotes, List.map_reverse, List.mem_reverse] at hmem
    exact hmem
  · intro s n hid
    rw [getAllNotes, saveNote_insert_notes s n hid, List.reverse_append]
    rfl
  · intro s n i hid hc
    rw [getAllNotes, getAllNotes, saveNote_update_notes s n i hid hc,
      List.map_reverse, List.map_reverse, List.map_map]
    congr 1
    apply List.map_congr_left
    intro r hr
    by_cases hri : r.id = i
    · simp [hri, sanitizeRecord]
    · simp [hri]

/-- Witness for the amended C1, instantiating all three parts on the
concrete two-note store: id 1 stays gone after deleting it and inserting
another note; a fresh insert lands first in the list; an update of id 1
leaves the returned id order unchanged. -/
theorem c1_amended_witness :
    1 < c1TwoStore.nextId
    ∧ (([Op.save c1NoteB].all fun op => !savesId 1 op) = true)
    ∧ 1 ∉ (getAllNotes (runOps (deleteNote c1TwoStore 1) [Op.save c1NoteB])).map StoredNote.id
    ∧ c1NoteA.id = none
    ∧ (getAllNotes (saveNote emptyStore c1NoteA).1).head?
        = some (sanitizeRecord c1NoteA emptyStore.nextId)
    ∧ c1NoteA2.id = some 1
    ∧ 1 ∈ c1TwoStore.ids
    ∧ (getAllNotes (saveNote c1TwoStore c1NoteA2).1).map StoredNote.id
        = (getAllNotes c1TwoStore).map StoredNote.id :=
  ⟨by decide, by decide,
    c1_amended_list_order.1 c1TwoStore 1 [Op.save c1NoteB] (by decide) (by decide),
    rfl, c1_amended_list_order.2.1 emptyStore c1NoteA rfl,
    rfl, by decide,
    c1_amended_list_order.2.2 c1TwoStore c1NoteA2 1 rfl (by decide)⟩

/-! ## Claim C2 (corrected) -/

/-- Counterexample to claim C2 as stated.  In the hybrid variant, from a
recording and online session: the end notification schedules the restart
(the flags are checked only at that moment), stop is requested during the
delay window, and when the delayed callback fires it calls
`recognition.start()` unconditionally — a new engine start is issued (the
counter goes from 0 to 1) even though the session is stopped. -/
theorem c2_counterexample :
    (restartTimerFireH (stopRecordingH (onendHybrid c2HybridStart))).engineStarts = 1
    ∧ (restartTimerFireH (stopRecordingH (onendHybrid c2HybridStart))).isRecording = false
    ∧ c2HybridStart.engineStarts = 0 := by decide

/-- Claim C2 as amended: in the app.js variant the suppression holds as
claimed.  For every recording session, if the end notification schedules
the auto-restart and stop is requested during the delay window, then when
the restart fires through `safeStartRecognition` the recording flag is
re-validated, so no new engine start is issued, the session stays stopped,
and no start is left in flight. -/
theorem c2_amended_stop_suppresses_restart (s : RecState) (h : s.isRecording = true) :
    (restartTimerFire (stopRecording (onendApp s))).isRecording = false
    ∧ (restartTimerFire (stopRecording (onendApp s))).engineStarts = s.engineStarts
    ∧ (restartTimerFire (stopRecording (onendApp s))).isRecognitionStarting = false := by
  simp [onendApp, stopRecording, restartTimerFire, safeStartRecognition, h]

/-- Witness for the amended C2 on a concrete recording session with seven
prior engine starts: after end, stop, and the timer firing, the session is
stopped and the engine start counter is still seven. -/
theorem c2_witness :
    c2AppStart.isRecording = true
    ∧ (restartTimerFire (stopRecording (onendApp c2AppStart))).isRecording = false
    ∧ (restartTimerFire (stopRecording (onendApp c2AppStart))).engineStarts = 7
    ∧ (restartTimerFire (stopRecording (onendApp c2AppStart))).isRecognitionStarting = false :=
  ⟨rfl, (c2_amended_stop_suppresses_restart c2AppStart rfl).1,
    (c2_amended_stop_suppresses_restart c2AppStart rfl).2.1.trans rfl,
    (c2_amended_stop_suppresses_restart c2AppStart rfl).2.2⟩

/-! ## Claim C3 (confirmed) -/

/-- Claim C3: in desktop mode, for every recognition event whose
cumulative final text is longer than the committed length
(`lastFinalizedLength`), exactly the trimmed suffix past the committed
length is spliced into the note, and the committed length is then set to
the new cumulative length.  (Stated for events where the trimmed suffix is
non-empty and a note is open, which is when an insertion happens at
all.) -/
theorem c3_desktop_only_suffix (ev : List (JStr × Bool)) (s : EditorState)
    (hn : s.hasNote = true)
    (hlen : s.lastFinalizedLength < (finalTextOf ev).length)
    (hne : jtrim ((finalTextOf ev).drop s.lastFinalizedLength) ≠ []) :
    handleDesktopResults ev s
      = { insertTranscript s (jtrim ((finalTextOf ev).drop s.lastFinalizedLength)) with
          lastFinalizedLength := (finalTextOf ev).length } := by
  have hemp : (jtrim ((finalTextOf ev).drop s.lastFinalizedLength)).isEmpty = false := by
    simpa [List.isEmpty_iff] using hne
  simp [handleDesktopResults, hlen, hn, hemp]

/-- Witness for C3, the scenario named by the claim: after a first event
finalizing "hello" the buffer is "hello " and the committed length 6; on
the second event the cumulative buffer is "hello world ", the delta is
exactly "world", and the note becomes "hello world " — "hello world" is
never inserted again. -/
theorem c3_witness :
    desk1.hasNote = true
    ∧ desk1.lastFinalizedLength < (finalTextOf ev2W).length
    ∧ jtrim ((finalTextOf ev2W).drop desk1.lastFinalizedLength) ≠ []
    ∧ jtrim ((finalTextOf ev2W).drop desk1.lastFinalizedLength) = strOf "world"
    ∧ desk1.noteText = strOf "hello "
    ∧ handleDesktopResults ev2W desk1
        = { noteText := strOf "hello world ", selStart := 12, hasNote := true,
            lastFinalizedLength := 12 } :=
  ⟨by decide, by decide, by decide, by decide, by decide,
    (c3_desktop_only_suffix ev2W desk1 (by decide) (by decide) (by decide)).trans (by decide)⟩

/-! ## Claim C4 (corrected) -/

/-- Counterexample to claim C4 as stated.  With note text "ab cd" and the
cursor at offset 2 (between "ab" and " cd"), inserting the trimmed delta
"x" yields "ab x  cd": the unconditional trailing space lands next to the
existing leading space of the after-part, producing adjacent duplicate
whitespace at the splice point even though neither the original text nor
the delta contains a double space. -/
theorem c4_counterexample :
    (insertTranscript c4EdState (strOf "x")).noteText = strOf "ab x  cd"
    ∧ hasDoubleSpace (insertTranscript c4EdState (strOf "x")).noteText = true
    ∧ hasDoubleSpace c4EdState.noteText = false
    ∧ hasDoubleSpace (strOf "x") = false
    ∧ jtrim (strOf "x") = strOf "x" := by decide

/-- Claim C4 as amended.  For every insertion, the delta is spliced at the
(effective) cursor exactly as claimed: a single leading space if and only
if the text before the cursor is non-empty and ends in neither a space nor
a newline, then the delta, then a trailing space, then the text after the
cursor, with the cursor moved to just after the trailing space.  No
duplicate whitespace is introduced on the leading side (the spacer is
never added after a space); the unconditional trailing space, however, can
duplicate whitespace when the text after the cursor begins with
whitespace, as the counterexample shows. -/
theorem c4_amended_splice (s : EditorState) (delta : JStr) :
    (insertTranscript s delta).noteText
      = s.noteText.take (effCursor s)
        ++ spacerFor (s.noteText.take (effCursor s))
        ++ delta ++ [' '] ++ s.noteText.drop (effCursor s)
    ∧ (insertTranscript s delta).selStart
      = effCursor s + (spacerFor (s.noteText.take (effCursor s))).length + delta.length + 1
    ∧ (spacerFor (s.noteText.take (effCursor s)) = [' ']
        ↔ (s.noteText.take (effCursor s) ≠ []
           ∧ endsWithCh (s.noteText.take (effCursor s)) ' ' = false
           ∧ endsWithCh (s.noteText.take (effCursor s)) '\n' = false))
    ∧ ¬(endsWithCh (s.noteText.take (effCursor s)) ' ' = true
        ∧ spacerFor (s.noteText.take (effCursor s)) = [' ']) := by
  refine ⟨rfl, rfl, ?_, ?_⟩
  · set before := s.noteText.take (effCursor s) with hb
    by_cases h1 : before.isEmpty
    · have : before = [] := by simpa [List.isEmpty_iff] using h1
      simp [spacerFor, needsSpaceFor, h1, this]
    · by_cases h2 : endsWithCh before ' '
      · simp [spacerFor, needsSpaceFor, h1, h2]
      · by_cases h3 : endsWithCh before '\n'
        · simp [spacerFor, needsSpaceFor, h1, h2, h3]
        · have hne : before ≠ [] := by simpa [List.isEmpty_iff] using h1
          simp [spacerFor, needsSpaceFor, h1, h2, h3, hne,
            Bool.not_eq_true, eq_false_of_ne_true]
  · rintro ⟨hend, hsp⟩
    simp [spacerFor, needsSpaceFor, hend] at hsp

/-! ## Claim C10 (confirmed) -/

/-- Claim C10: in the app.js insertion handlers, a zero cursor offset is
falsy, so it is replaced by the text length.  Whenever `selectionStart`
is 0 and the note text is non-empty, the delta (with its spacer and
trailing space) is appended at the end of the existing text — the after
part is empty — rather than spliced at position 0. -/
theorem c10_zero_cursor_appends (s : EditorState) (delta : JStr)
    (h0 : s.selStart = 0) (hne : s.noteText ≠ []) :
    (insertTranscript s delta).noteText
      = s.noteText ++ spacerFor s.noteText ++ delta ++ [' ']
    ∧ effCursor s = s.noteText.length
    ∧ 0 < s.noteText.length := by
  have hc : effCursor s = s.noteText.length := by simp [effCursor, h0]
  refine ⟨?_, hc, List.length_pos.mpr hne⟩
  show s.noteText.take (effCursor s)
      ++ spacerFor (s.noteText.take (effCursor s))
      ++ delta ++ [' '] ++ s.noteText.drop (effCursor s)
    = s.noteText ++ spacerFor s.noteText ++ delta ++ [' ']
  rw [hc, List.take_length, List.drop_length, List.append_nil]

/-- Witness for C10: with text "ab" and cursor offset 0, inserting "x"
appends at the end, giving "ab x ". -/
theorem c10_witness :
    c10EdState.selStart = 0
    ∧ c10EdState.noteText ≠ []
    ∧ (insertTranscript c10EdState (strOf "x")).noteText
        = c10EdState.noteText ++ spacerFor c10EdState.noteText ++ strOf "x" ++ [' ']
    ∧ effCursor c10EdState = c10EdState.noteText.length
    ∧ (insertTranscript c10EdState (strOf "x")).noteText = strOf "ab x " :=
  ⟨rfl, by decide,
    (c10_zero_cursor_appends c10EdState (strOf "x") rfl (by decide)).1,
    (c10_zero_cursor_appends c10EdState (strOf "x") rfl (by decide)).2.1,
    by decide⟩

/-! ## Claim C5 (confirmed) -/

/-- Inside a burst, the pending timer of each mutation is cancelled by the
next mutation, so the only write is the one from the last mutation. -/
theorem debounceGo_burst (rest : List (Nat × String)) :
    ∀ (t : Nat) (c : String), gapsOK ((t, c) :: rest) = true →
      debounceGo (some (t + 1000)) c rest
        = [((((t, c) :: rest).getLastD (t, c)).1 + 1000,
            (((t, c) :: rest).getLastD (t, c)).2)] := by
  induction rest with
  | nil => intro t c _; simp [debounceGo]
  | cons p rest2 ih =>
    intro t c h
    obtain ⟨t2, c2⟩ := p
    simp only [gapsOK, Bool.and_eq_true, decide_eq_true_eq] at h
    have hnf : ¬ t + 1000 ≤ t2 := Nat.not_le_of_lt h.1
    have := ih t2 c2 h.2
    simp only [debounceGo, hnf, if_false, List.getLastD_cons] at this ⊢
    exact this

/-- Claim C5: for every non-empty burst of mutations in which each
mutation arrives within 1000 ms of the previous one, exactly one
persistence write occurs — at the time of the last mutation plus the
1000 ms quiescent period — and its content is the content left by the last
mutation; each new mutation cancels and restarts the pending timer. -/
theorem c5_debounce_single_write (t : Nat) (c : String) (rest : List (Nat × String))
    (h : gapsOK ((t, c) :: rest) = true) :
    debounceRun ((t, c) :: rest)
      = [((((t, c) :: rest).getLastD (t, c)).1 + 1000,
          (((t, c) :: rest).getLastD (t, c)).2)] := by
  show debounceGo none "" ((t, c) :: rest) = _
  rw [show debounceGo none "" ((t, c) :: rest) = debounceGo (some (t + 1000)) c rest from rfl]
  exact debounceGo_burst rest t c h

/-- Witness for C5: five mutations at 0, 500, 900, 1500 and 2300 ms (all
gaps under 1000 ms) produce exactly one write, at 3300 ms, with the
content of the fifth mutation. -/
theorem c5_witness :
    gapsOK c5Burst = true
    ∧ debounceRun c5Burst = [(3300, "e")] :=
  ⟨by decide,
    (c5_debounce_single_write 0 "a" [(500, "b"), (900, "c"), (1500, "d"), (2300, "e")]
      (by decide)).trans (by decide)⟩

/-! ## Claim C6 (confirmed) -/

/-- Claim C6: a start-recording request while the connectivity flag is
offline never invokes the speech engine and never changes the recording
flag, in both variants; when the session was stopped (and, in app.js, no
start was in flight, which is what lets the request reach the offline
check), the state stays stopped and a status message is shown to the
user. -/
theorem c6_offline_refuses_start (s : SessionState) (h : s.online = false) :
    (startRecording s).engineStarts = s.engineStarts
    ∧ (startRecording s).isRecording = s.isRecording
    ∧ (startRecordingH s).engineStarts = s.engineStarts
    ∧ (startRecordingH s).isRecording = s.isRecording
    ∧ (s.isRecording = false → s.isRecognitionStarting = false →
        (startRecording s).statusShown = true)
    ∧ (startRecordingH s).statusShown = true := by
  obtain ⟨rec, rs, onl, sup, n, st⟩ := s
  simp only at h
  subst h
  cases rec <;> cases rs <;> cases sup <;>
    simp [startRecording, startRecordingH, safeStartSession]

/-- Witness for C6: a concrete stopped offline session with engine
support: both variants issue no engine start, stay stopped, and show a
status message. -/
theorem c6_witness :
    c6Session.online = false
    ∧ (startRecording c6Session).engineStarts = 0
    ∧ (startRecording c6Session).isRecording = false
    ∧ (startRecording c6Session).statusShown = true
    ∧ (startRecordingH c6Session).engineStarts = 0
    ∧ (startRecordingH c6Session).isRecording = false
    ∧ (startRecordingH c6Session).statusShown = true :=
  ⟨rfl, (c6_offline_refuses_start c6Session rfl).1.trans rfl,
    (c6_offline_refuses_start c6Session rfl).2.1.trans rfl,
    (c6_offline_refuses_start c6Session rfl).2.2.2.2.1 rfl rfl,
    (c6_offline_refuses_start c6Session rfl).2.2.1.trans rfl,
    (c6_offline_refuses_start c6Session rfl).2.2.2.1.trans rfl,
    (c6_offline_refuses_start c6Session rfl).2.2.2.2.2⟩

/-! ## Claim C9 (confirmed) -/

/-- Decoding an encoded string array gives back the array. -/
theorem decodeList_jstr (ts : List JStr) :
    decodeList asStr (ts.map Json.jstr) = some ts := by
  induction ts with
  | nil => rfl
  | cons a l ih => simp [decodeList, asStr, ih]

/-- Decoding the JSON object of one stored record gives back the record
field by field. -/
theorem jsonToNote_noteToJson (r : StoredNote) : jsonToNote (noteToJson r) = some r := by
  obtain ⟨i, t, x, sm, lg, ts, tg⟩ := r
  cases sm <;>
    simp [jsonToNote, noteToJson, getField, asStr, asNum, asOptStr, asStrArr,
      decodeList_jstr]

/-- Decoding an encoded record list gives back the list. -/
theorem decodeList_notes (l : List StoredNote) :
    decodeList jsonToNote (l.map noteToJson) = some l := by
  induction l with
  | nil => rfl
  | cons a l ih => simp [decodeList, jsonToNote_noteToJson, ih]

/-- Claim C9: for every store, parsing the export document reproduces the
listed notes exactly — every title, text, summary, language, timestamp,
tag list and id comes back equal to the stored value.  The export document
is built from the stored fields directly, with no second sanitization
pass, so no double-escaping occurs (a stored "a&amp;b" round-trips as
"a&amp;b"). -/
theorem c9_export_roundtrip (s : Store) :
    parseExport (exportDoc s) = some (getAllNotes s) := by
  simp [parseExport, exportDoc, decodeList_notes]

/-! ## Claims C7 and C8 (confirmed) -/

/-- Claim C7: `saveNote` always sanitizes before writing.  The record it
writes is exactly `sanitizeRecord` of the in-memory note (it is in the
resulting store, and every record of the new store is either an untouched
old record or that sanitized record), whose `title` and `text` are the
HTML-escaped in-memory values and whose `summary`, when present and
non-empty, is the HTML-escaped in-memory summary.  This holds for insert
(`id` unset) and update (`id` set) alike, since the case split happens
after sanitizing. -/
theorem c7_save_sanitizes (s : Store) (n : Note) :
    sanitizeRecord n (saveNote s n).2 ∈ (saveNote s n).1.notes
    ∧ (∀ r ∈ (saveNote s n).1.notes, r ∈ s.notes ∨ r = sanitizeRecord n (saveNote s n).2)
    ∧ (sanitizeRecord n (saveNote s n).2).title = escapeHtml n.title
    ∧ (sanitizeRecord n (saveNote s n).2).text = escapeHtml n.text
    ∧ ∀ sm, n.summary = some sm → sm ≠ [] →
        (sanitizeRecord n (saveNote s n).2).summary = some (escapeHtml sm) := by
  refine ⟨?_, ?_, rfl, rfl, ?_⟩
  · cases hid : n.id with
    | none =>
      rw [show (saveNote s n).2 = s.nextId by simp [saveNote, hid],
        saveNote_insert_notes s n hid]
      exact List.mem_append.mpr (Or.inr (List.mem_singleton.mpr rfl))
    | some j =>
      have h2 : (saveNote s n).2 = j := by
        by_cases hc : j ∈ s.ids <;> simp [saveNote, hid, hc]
      rw [h2]
      by_cases hc : j ∈ s.ids
      · rw [saveNote_update_notes s n j hid hc]
        rcases List.mem_map.mp hc with ⟨r, hr, hrid⟩
        exact List.mem_map.mpr ⟨r, hr, by simp [hrid]⟩
      · rw [saveNote_putfresh_notes s n j hid hc]
        exact mem_insertById_self _ _
  · intro r hr
    cases hid : n.id with
    | none =>
      rw [saveNote_insert_notes s n hid] at hr
      rw [show (saveNote s n).2 = s.nextId by simp [saveNote, hid]]
      rcases List.mem_append.mp hr with h | h
      · exact Or.inl h
      · exact Or.inr (List.mem_singleton.mp h)
    | some j =>
      have h2 : (saveNote s n).2 = j := by
        by_cases hc : j ∈ s.ids <;> simp [saveNote, hid, hc]
      rw [h2]
      by_cases hc : j ∈ s.ids
      · rw [saveNote_update_notes s n j hid hc] at hr
        rcases List.mem_map.mp hr with ⟨q, hq, hfq⟩
        by_cases hqj : q.id = j
        · rw [if_pos hqj] at hfq
          exact Or.inr hfq.symm
        · rw [if_neg hqj] at hfq
          exact Or.inl (hfq ▸ hq)
      · rw [saveNote_putfresh_notes s n j hid hc] at hr
        rcases eq_or_mem_of_mem_insertById _ _ hr with h | h
        · exact Or.inr h
        · exact Or.inl h
  · intro sm hsm hne
    simp [sanitizeRecord, hsm, hne]

/-- Witness for C7: saving a concrete note with markup in title, text and
summary stores the record with all three fields escaped. -/
theorem c7_witness :
    wNoteHtml.summary = some (strOf "e>f")
    ∧ strOf "e>f" ≠ []
    ∧ sanitizeRecord wNoteHtml (saveNote emptyStore wNoteHtml).2
        ∈ (saveNote emptyStore wNoteHtml).1.notes
    ∧ (sanitizeRecord wNoteHtml (saveNote emptyStore wNoteHtml).2).title
        = escapeHtml wNoteHtml.title
    ∧ (sanitizeRecord wNoteHtml (saveNote emptyStore wNoteHtml).2).summary
        = some (escapeHtml (strOf "e>f")) :=
  ⟨rfl, by decide, (c7_save_sanitizes emptyStore wNoteHtml).1,
    (c7_save_sanitizes emptyStore wNoteHtml).2.2.1,
    (c7_save_sanitizes emptyStore wNoteHtml).2.2.2.2 _ rfl (by decide)⟩

/-- Claim C8: deleting a nonexistent id is a no-op success (the request
resolves and the store is untouched), and deleting the same nonexistent id
twice leaves the store identical to deleting it once.  `deleteNote` is a
total function in the model, so every call resolves; the theorem shows the
no-op and the idempotence. -/
theorem c8_delete_nonexistent_idempotent (s : Store) (i : Nat)
    (h : i ∉ s.ids) :
    deleteNote s i = s ∧ deleteNote (deleteNote s i) i = deleteNote s i := by
  constructor
  · cases s with
    | mk notes nextId =>
      simp only [deleteNote, Store.mk.injEq, and_true]
      apply List.filter_eq_self.mpr
      intro r hr
      simp only [bne_iff_ne, ne_eq, decide_eq_true_eq]
      intro hri
      exact h (List.mem_map.mpr ⟨r, hr, hri⟩)
  · simp [deleteNote, List.filter_filter]

/-- Witness for C8: in a concrete one-record store, id 5 is absent, and
deleting it once or twice changes nothing. -/
theorem c8_witness :
    5 ∉ wStore.ids
    ∧ deleteNote wStore 5 = wStore
    ∧ deleteNote (deleteNote wStore 5) 5 = deleteNote wStore 5 :=
  ⟨by decide, (c8_delete_nonexistent_idempotent wStore 5 (by decide)).1,
    (c8_delete_nonexistent_idempotent wStore 5 (by decide)).2⟩

end VoiceNotes
